import Mathlib

/-!
Shallow embedding of the recodextech/container module lifecycle
orchestrator (src/container.go, with the interface declarations as
documented in src/README.md) and proofs about its registry,
configuration and lifecycle operations.
-/

set_option autoImplicit false

/-- A Go map with string keys, modelled as a partial function. An absent
key yields none, which mirrors both the comma-ok read form and the
zero-value (nil interface) read form of Go map access. -/
def GoMap (α : Type) : Type := String → Option α

/-- The empty map, as built by NewContainer. -/
def GoMap.empty {α : Type} : GoMap α := fun _ => none

/-- Map assignment m[k] = v: overwrites any previous value bound to k. -/
def GoMap.set {α : Type} (m : GoMap α) (k : String) (v : α) : GoMap α :=
  fun q => if q = k then some v else m q

/-- A bound module object, abstracted to its dynamic capability
membership and the (fixed) results of its lifecycle methods. Following
the interface declarations in src/README.md: Initable exposes
Init(Container) error; Runnable embeds Initable and adds Run() error;
Stoppable exposes Stop() error. The fields hasInit, hasRun, hasStop
record which methods the dynamic type of the object exposes, and
initErr / stopErr record whether the corresponding call returns a
non-nil error. -/
structure Obj where
  hasInit : Bool
  hasRun : Bool
  hasStop : Bool
  initErr : Bool
  stopErr : Bool
deriving DecidableEq

/-- Go type assertion v.(Initable): succeeds exactly when the object is
present (a nil interface fails every assertion) and its dynamic type has
the Init method. -/
def isInitable (o : Option Obj) : Bool :=
  match o with
  | some x => x.hasInit
  | none => false

/-- Go type assertion v.(Runnable): per src/README.md the Runnable
interface embeds Initable, so the dynamic type must expose both Init and
Run for the assertion to succeed; a nil interface fails it. -/
def isRunnable (o : Option Obj) : Bool :=
  match o with
  | some x => x.hasInit && x.hasRun
  | none => false

/-- Go type assertion v.(Stoppable): the dynamic type must expose Stop;
a nil interface fails it. -/
def isStoppable (o : Option Obj) : Bool :=
  match o with
  | some x => x.hasStop
  | none => false

/-- The distinct panic messages raised by container.go: the notFound
panic of Resolve and GetGlobalConfig (format string `%s no module`), the
propagated error of a module Init call, and the two missing-capability
panics of Start (`module [%s] is not runnable`) and Shutdown
(`module [%s] is not stoppable`). -/
inductive PanicKind where
  | notFound (name : String)
  | initError (name : String)
  | notRunnable (name : String)
  | notStoppable (name : String)
deriving DecidableEq

namespace Container

/-- Bind stores or overwrites the binding: c.bindings[typ] = obj. -/
def Bind (b : GoMap Obj) (typ : String) (obj : Obj) : GoMap Obj :=
  b.set typ obj

/-- Resolve returns the bound object, or panics with the notFound
message when no binding exists. -/
def Resolve (b : GoMap Obj) (name : String) : Except PanicKind Obj :=
  match b name with
  | some con => Except.ok con
  | none => Except.error (PanicKind.notFound name)

/-- The Init phase of container.go: for each name in order, the binding
is read with the value form c.bindings[name] and asserted to Initable;
on success Init is invoked and a returned error panics immediately.
Returns the list of names whose Init method was invoked, in invocation
order, together with the panic that halted the phase, if any. -/
def Init (b : GoMap Obj) : List String → List String × Option PanicKind
  | [] => ([], none)
  | name :: rest =>
    match b name with
    | some o =>
      if o.hasInit then
        if o.initErr then ([name], some (PanicKind.initError name))
        else
          let r := Init b rest
          (name :: r.1, r.2)
      else Init b rest
    | none => Init b rest

/-- One possible end of the Start phase: either every name passed the
Runnable assertion, its Run was dispatched on a fresh goroutine, and the
calling thread reached the blocking receive on c.stopped; or the first
name failing the assertion panicked the phase. In both cases launched
lists, in order, the modules whose Run had been dispatched by then. -/
inductive StartOutcome where
  | blocked (launched : List String)
  | panicked (launched : List String) (p : PanicKind)
deriving DecidableEq

/-- The loop of Start in container.go: for each module in order, read
the binding with the value form c.bindings[module], assert it to
Runnable, panic if the assertion fails, otherwise dispatch Run on a new
goroutine and continue. The launched accumulator carries the modules
already dispatched; the phase starts it at []. -/
def Start (b : GoMap Obj) (launched : List String) : List String → StartOutcome
  | [] => StartOutcome.blocked launched
  | module :: rest =>
    if isRunnable (b module) then Start b (launched ++ [module]) rest
    else StartOutcome.panicked launched (PanicKind.notRunnable module)

/-- The Shutdown loop of container.go: for each module in order, read
the binding with the value form, assert it to Stoppable, panic if the
assertion fails; otherwise call Stop synchronously, log a returned error
and continue. Returns the names whose Stop was invoked in order, the
names whose Stop returned a logged error, and the panic that halted the
phase, if any. -/
def Shutdown (b : GoMap Obj) : List String → List String × List String × Option PanicKind
  | [] => ([], [], none)
  | module :: rest =>
    match b module with
    | some o =>
      if o.hasStop then
        let r := Shutdown b rest
        (module :: r.1, (if o.stopErr then [module] else []) ++ r.2.1, r.2.2)
      else ([], [], some (PanicKind.notStoppable module))
    | none => ([], [], some (PanicKind.notStoppable module))

end Container

/-- A config value, abstracted to the two facts container.go consults
about it: whether its dynamic type satisfies the gocon.Configer
interface (the type assertion value.Value.(gocon.Configer)), and whether
the external provider validates it when gocon.Load processes it. -/
structure ConfigVal where
  isConfiger : Bool
  valid : Bool
deriving DecidableEq

/-- ModuleConfig as documented in src/README.md: a Key and a Value. -/
structure ModuleConfig where
  Key : String
  Value : ConfigVal
deriving DecidableEq

/-- How a SetModuleGlobalConfig call ends: nil error, the error returned
by gocon.Load, or the panic of a failed Configer type assertion. -/
inductive SetConfigsOutcome where
  | ok
  | loadError
  | assertPanic (key : String)
deriving DecidableEq

/-- The external configuration provider gocon.Load, abstracted to its
pass/fail result: it fails exactly when some passed config fails
validation. -/
def goconLoad (cfgs : List ConfigVal) : Bool := cfgs.all (fun c => c.valid)

namespace Container

/-- The loop of SetModuleGlobalConfig: for each entry, first assert the
value to gocon.Configer (a failure panics before the map write), then
write the entry into c.moduleConfigs. Returns the updated config map,
the collected Configer list, and the key whose assertion panicked, if
any. Every entry processed before a panic stays written. -/
def setLoop (cm : GoMap ConfigVal) :
    List ModuleConfig → GoMap ConfigVal × List ConfigVal × Option String
  | [] => (cm, [], none)
  | c :: rest =>
    if c.Value.isConfiger then
      let r := setLoop (cm.set c.Key c.Value) rest
      (r.1, c.Value :: r.2.1, r.2.2)
    else (cm, [], some c.Key)

/-- SetModuleGlobalConfig of container.go: runs the loop above, writing
every entry into the config map, and only afterwards calls gocon.Load
over the collected Configer values and returns its result. The map
writes are not undone when Load fails. -/
def SetModuleGlobalConfig (cm : GoMap ConfigVal) (configs : List ModuleConfig) :
    GoMap ConfigVal × SetConfigsOutcome :=
  let r := setLoop cm configs
  match r.2.2 with
  | some k => (r.1, SetConfigsOutcome.assertPanic k)
  | none => (r.1, if goconLoad r.2.1 then SetConfigsOutcome.ok else SetConfigsOutcome.loadError)

/-- GetGlobalConfig returns the stored config value, or panics with the
notFound message when the key is absent. -/
def GetGlobalConfig (cm : GoMap ConfigVal) (typ : String) : Except PanicKind ConfigVal :=
  match cm typ with
  | some config => Except.ok config
  | none => Except.error (PanicKind.notFound typ)

end Container

/-! ### The stopped channel

NewContainer creates c.stopped with make(chan struct 7b 7d, 1): a
buffered channel of capacity one. Each stop-signal watcher goroutine
spawned by Start performs one send on it when its source fires, Shutdown
performs one send after its stop loop, and Start performs a single
receive after launching all modules. We model the channel by the number
of buffered messages together with counters of completed receives and of
senders blocked forever on a full buffer, and a run of the system as a
fold over the sequence of send and receive events in program order. -/

/-- The capacity the source gives c.stopped: make(chan struct, 1). -/
def stoppedCap : Nat := 1

/-- State of the c.stopped channel: buf is the number of buffered
messages (at most stoppedCap), startUnblocks counts completed receives
(each one unblocks the Start phase), blockedSends counts send operations
that found the buffer full and therefore block their goroutine forever
(nothing ever drains the buffer again once Start has returned). -/
structure ChanState where
  buf : Nat
  startUnblocks : Nat
  blockedSends : Nat
deriving DecidableEq

/-- The initial channel state right after NewContainer. -/
def initChan : ChanState := { buf := 0, startUnblocks := 0, blockedSends := 0 }

/-- Events touching c.stopped: a registered stop-signal source fires
(its watcher goroutine sends), a Shutdown call reaches its final send,
or the blocked receive in Start completes. -/
inductive StopEv where
  | fire
  | shutdownSend
  | startRecv
deriving DecidableEq

/-- One step of the channel semantics. A send buffers the message when
the buffer is below capacity and otherwise blocks the sender forever; a
receive consumes a buffered message and unblocks Start, and is a no-op
step when the buffer is empty (the receiver simply stays blocked). -/
def stepStop (s : ChanState) : StopEv → ChanState
  | StopEv.fire =>
    if s.buf < stoppedCap then { s with buf := s.buf + 1 }
    else { s with blockedSends := s.blockedSends + 1 }
  | StopEv.shutdownSend =>
    if s.buf < stoppedCap then { s with buf := s.buf + 1 }
    else { s with blockedSends := s.blockedSends + 1 }
  | StopEv.startRecv =>
    if 0 < s.buf then
      { s with buf := s.buf - 1, startUnblocks := s.startUnblocks + 1 }
    else s

/-- Running a whole interleaving of channel events from a given state. -/
def runStop (s : ChanState) (tr : List StopEv) : ChanState :=
  tr.foldl stepStop s

/-! ### Lock instrumentation

The container struct declares lock sync.Mutex, but no method of
container.go ever calls Lock or Unlock on it. The following action
traces record, for each exported operation, the sequence of mutex and
map operations the source performs, read off line by line: Bind writes
c.bindings once; Resolve and GetGlobalConfig read their map once; Init,
Start and Shutdown read c.bindings once per name; SetModuleGlobalConfig
writes c.moduleConfigs once per entry. None of them contains a lock
acquisition. -/

/-- An atomic action on the shared container state: acquiring or
releasing the mutex, or reading or writing one of the two maps. -/
inductive MemAction where
  | lockAcq
  | lockRel
  | mapRead
  | mapWrite
deriving DecidableEq

/-- Actions of Bind: the single map write c.bindings[typ] = obj. -/
def bindActions : List MemAction := [MemAction.mapWrite]

/-- Actions of Resolve: the single read of c.bindings. -/
def resolveActions : List MemAction := [MemAction.mapRead]

/-- Actions of GetGlobalConfig: the single read of c.moduleConfigs. -/
def getGlobalConfigActions : List MemAction := [MemAction.mapRead]

/-- Actions of the Init phase: one read of c.bindings per name. -/
def initActions (modules : List String) : List MemAction :=
  modules.map (fun _ => MemAction.mapRead)

/-- Actions of the Start loop: one read of c.bindings per name. -/
def startActions (modules : List String) : List MemAction :=
  modules.map (fun _ => MemAction.mapRead)

/-- Actions of the Shutdown loop: one read of c.bindings per name. -/
def shutdownActions (modules : List String) : List MemAction :=
  modules.map (fun _ => MemAction.mapRead)

/-- Actions of SetModuleGlobalConfig: one write of c.moduleConfigs per
entry of the batch. -/
def setModuleGlobalConfigActions (configs : List ModuleConfig) : List MemAction :=
  configs.map (fun _ => MemAction.mapWrite)

/-- Whether every map access in the trace happens while the mutex is
held, tracking the lock depth from the given starting depth. -/
def lockGuardedFrom : Nat → List MemAction → Bool
  | _, [] => true
  | d, MemAction.lockAcq :: r => lockGuardedFrom (d + 1) r
  | d, MemAction.lockRel :: r => lockGuardedFrom (d - 1) r
  | d, MemAction.mapRead :: r => decide (0 < d) && lockGuardedFrom d r
  | d, MemAction.mapWrite :: r => decide (0 < d) && lockGuardedFrom d r

/-- Whether every map access in the trace of one operation happens under
the mutex, starting from the unlocked state. -/
def lockGuarded (l : List MemAction) : Bool := lockGuardedFrom 0 l

/-- Whether the Init phase both invokes Init on the binding of this name
and receives an error from it: the name is bound, the object exposes
Init, and the call returns a non-nil error. -/
def initFails (b : GoMap Obj) (n : String) : Bool :=
  match b n with
  | some o => o.hasInit && o.initErr
  | none => false

/-- Whether the Stop call on the binding of this name returns an error
that the Shutdown loop logs. -/
def stopErrs (b : GoMap Obj) (n : String) : Bool :=
  match b n with
  | some o => o.stopErr
  | none => false

/-! ### Theorems -/

/-- C8: Re-binding a name replaces the prior value: after Bind(n, a)
then Bind(n, b2), Resolve(n) returns b2, and the binding of every other
name m is unchanged. -/
theorem c8_rebind_replaces (bnd : GoMap Obj) (n m : String) (a b2 : Obj)
    (h : m ≠ n) :
    Container.Resolve (Container.Bind (Container.Bind bnd n a) n b2) n = Except.ok b2 ∧
    Container.Bind (Container.Bind bnd n a) n b2 m = bnd m := by
  constructor
  · simp [Container.Resolve, Container.Bind, GoMap.set]
  · simp [Container.Bind, GoMap.set, h]

/-- Witness for C8 at concrete inputs. -/
theorem c8_witness :
    Container.Resolve
        (Container.Bind (Container.Bind GoMap.empty "y" ⟨true, false, false, false, false⟩)
          "y" ⟨false, false, true, false, false⟩) "y"
      = Except.ok ⟨false, false, true, false, false⟩ ∧
    Container.Bind (Container.Bind GoMap.empty "y" ⟨true, false, false, false, false⟩)
        "y" ⟨false, false, true, false, false⟩ "x"
      = GoMap.empty "x" :=
  c8_rebind_replaces GoMap.empty "y" "x" ⟨true, false, false, false, false⟩
    ⟨false, false, true, false, false⟩ (by decide)

/-- C9: a name with no binding does not make Start or Shutdown fail with
NotFound: the nil interface fails the capability assertion, so the phase
panics with the missing-capability message (notRunnable resp.
notStoppable), exactly the outcome obtained when the name is bound to an
object lacking the capability. -/
theorem c9_unbound_missing_capability (b : GoMap Obj) (n : String) (rest : List String)
    (o : Obj) (hn : b n = none) (hrun : (o.hasInit && o.hasRun) = false)
    (hstop : o.hasStop = false) :
    Container.Start b [] (n :: rest) = Container.StartOutcome.panicked [] (PanicKind.notRunnable n) ∧
    Container.Shutdown b (n :: rest) = ([], [], some (PanicKind.notStoppable n)) ∧
    Container.Start (GoMap.set b n o) [] (n :: rest)
      = Container.StartOutcome.panicked [] (PanicKind.notRunnable n) ∧
    Container.Shutdown (GoMap.set b n o) (n :: rest)
      = ([], [], some (PanicKind.notStoppable n)) := by
  refine ⟨?_, ?_, ?_, ?_⟩
  · simp [Container.Start, isRunnable, hn]
  · simp [Container.Shutdown, hn]
  · simp [Container.Start, isRunnable, GoMap.set, hrun]
  · simp [Container.Shutdown, GoMap.set, hstop]

/-- Witness for C9 at concrete inputs. -/
theorem c9_witness :
    Container.Start GoMap.empty [] ["ghost"]
      = Container.StartOutcome.panicked [] (PanicKind.notRunnable "ghost") ∧
    Container.Shutdown GoMap.empty ["ghost"] = ([], [], some (PanicKind.notStoppable "ghost")) ∧
    Container.Start (GoMap.set GoMap.empty "ghost" ⟨false, false, false, false, false⟩) [] ["ghost"]
      = Container.StartOutcome.panicked [] (PanicKind.notRunnable "ghost") ∧
    Container.Shutdown (GoMap.set GoMap.empty "ghost" ⟨false, false, false, false, false⟩) ["ghost"]
      = ([], [], some (PanicKind.notStoppable "ghost")) :=
  c9_unbound_missing_capability GoMap.empty "ghost" [] ⟨false, false, false, false, false⟩
    rfl (by decide) (by decide)

/-- The Init phase never produces the notFound panic: its only panic is
the propagated initError of a module. -/
theorem init_no_notFound (b : GoMap Obj) (l : List String) :
    ∀ m : String, (Container.Init b l).2 ≠ some (PanicKind.notFound m) := by
  induction l with
  | nil => intro m; simp [Container.Init]
  | cons n rest ih =>
    intro m
    cases hbn : b n with
    | none =>
      simp only [Container.Init, hbn]
      exact ih m
    | some o =>
      by_cases hi : o.hasInit = true
      · by_cases he : o.initErr = true
        · simp [Container.Init, hbn, hi, he]
        · simp only [Container.Init, hbn, hi, if_true, Bool.not_eq_true] at *
          simp only [he, if_false]
          exact ih m
      · simp only [Container.Init, hbn, Bool.not_eq_true] at *
        simp only [hi, if_false]
        exact ih m

/-- C10: a name with no binding is silently skipped by Init exactly like
a bound object that does not expose Init: nothing is invoked for it, the
phase proceeds with the rest of the list, and no NotFound failure is
raised. -/
theorem c10_init_skips_unbound (b b2 : GoMap Obj) (n : String) (rest : List String)
    (o : Obj) (hn : b n = none) (hb2 : b2 n = some o) (ho : o.hasInit = false) :
    Container.Init b (n :: rest) = Container.Init b rest ∧
    Container.Init b2 (n :: rest) = Container.Init b2 rest ∧
    (Container.Init b (n :: rest)).2 ≠ some (PanicKind.notFound n) := by
  refine ⟨?_, ?_, ?_⟩
  · simp [Container.Init, hn]
  · simp [Container.Init, hb2, ho]
  · exact init_no_notFound b (n :: rest) n

/-- Witness for C10 at concrete inputs. -/
theorem c10_witness :
    Container.Init (GoMap.set GoMap.empty "a" ⟨true, false, false, false, false⟩) ["ghost", "a"]
      = Container.Init (GoMap.set GoMap.empty "a" ⟨true, false, false, false, false⟩) ["a"] ∧
    Container.Init (GoMap.set GoMap.empty "ghost" ⟨false, false, true, false, false⟩) ["ghost", "a"]
      = Container.Init (GoMap.set GoMap.empty "ghost" ⟨false, false, true, false, false⟩) ["a"] ∧
    (Container.Init (GoMap.set GoMap.empty "a" ⟨true, false, false, false, false⟩) ["ghost", "a"]).2
      ≠ some (PanicKind.notFound "ghost") :=
  c10_init_skips_unbound (GoMap.set GoMap.empty "a" ⟨true, false, false, false, false⟩)
    (GoMap.set GoMap.empty "ghost" ⟨false, false, true, false, false⟩) "ghost" ["a"]
    ⟨false, false, true, false, false⟩ (by decide) (by decide) (by decide)

/-- The Start loop over a list of runnable names followed by a
non-runnable one panics at that name, having appended exactly the
runnable names to the launched accumulator. -/
theorem start_launch_aux (b : GoMap Obj) (k : String) (post : List String)
    (hk : isRunnable (b k) = false) :
    ∀ pre : List String, (∀ n ∈ pre, isRunnable (b n) = true) →
      ∀ acc : List String,
        Container.Start b acc (pre ++ k :: post)
          = Container.StartOutcome.panicked (acc ++ pre) (PanicKind.notRunnable k) := by
  intro pre
  induction pre with
  | nil =>
    intro _ acc
    simp [Container.Start, hk]
  | cons n rest ih =>
    intro h acc
    have hn := h n (List.mem_cons_self n rest)
    have hrec := ih (fun x hx => h x (List.mem_cons_of_mem n hx)) (acc ++ [n])
    rw [List.cons_append]
    have hstep : Container.Start b acc (n :: (rest ++ k :: post))
        = Container.Start b (acc ++ [n]) (rest ++ k :: post) := by
      simp [Container.Start, hn]
    rw [hstep, hrec]
    simp

/-- C2 (amended): when the ordered list is a run of Runnable names
followed by a first non-Runnable name k, Start panics with the
missing-capability condition at k, but only after having dispatched
Run() for every module preceding k; no module from k onward is
launched. -/
theorem c2_start_launches_preceding (b : GoMap Obj) (pre : List String) (k : String)
    (post : List String) (hpre : ∀ n ∈ pre, isRunnable (b n) = true)
    (hk : isRunnable (b k) = false) :
    Container.Start b [] (pre ++ k :: post)
      = Container.StartOutcome.panicked pre (PanicKind.notRunnable k) := by
  have h := start_launch_aux b k post hk pre hpre []
  simpa using h

/-- Witness for C2 at concrete inputs. -/
theorem c2_witness :
    Container.Start
        ((GoMap.empty.set "a" ⟨true, true, false, false, false⟩).set "c" ⟨true, false, true, false, false⟩)
        [] ["a", "c"]
      = Container.StartOutcome.panicked ["a"] (PanicKind.notRunnable "c") :=
  c2_start_launches_preceding
    ((GoMap.empty.set "a" ⟨true, true, false, false, false⟩).set "c" ⟨true, false, true, false, false⟩)
    ["a"] "c" [] (by decide) (by decide)

/-- C2 counterexample: with "a" bound to a Runnable module and "c" bound
to a module without Run, Start over ["a", "c"] panics with launched list
["a"], not []: the Run of the module preceding the offender has already
been dispatched, against the claim that no module from the list is
launched. -/
theorem c2_counterexample :
    Container.Start
        ((GoMap.empty.set "a" ⟨true, true, false, false, false⟩).set "c" ⟨true, false, true, false, false⟩)
        [] ["a", "c"]
      ≠ Container.StartOutcome.panicked [] (PanicKind.notRunnable "c") ∧
    Container.Start
        ((GoMap.empty.set "a" ⟨true, true, false, false, false⟩).set "c" ⟨true, false, true, false, false⟩)
        [] ["a", "c"]
      = Container.StartOutcome.panicked ["a"] (PanicKind.notRunnable "c") := by decide

/-- Splitting the Init phase at a list append: names whose Init does not
fail are processed first, invoking exactly the Initable ones, and the
phase continues on the remaining list. -/
theorem init_append_skip (b : GoMap Obj) (l : List String) :
    ∀ pre : List String, (∀ n ∈ pre, initFails b n = false) →
      Container.Init b (pre ++ l)
        = (pre.filter (fun n => isInitable (b n)) ++ (Container.Init b l).1,
           (Container.Init b l).2) := by
  intro pre
  induction pre with
  | nil => intro _; simp
  | cons n rest ih =>
    intro h
    have hn : initFails b n = false := h n (List.mem_cons_self n rest)
    have hrec := ih (fun x hx => h x (List.mem_cons_of_mem n hx))
    rw [List.cons_append]
    unfold initFails at hn
    cases hbn : b n with
    | none =>
      have hstep : Container.Init b (n :: (rest ++ l)) = Container.Init b (rest ++ l) := by
        simp [Container.Init, hbn]
      have hini : isInitable (b n) = false := by rw [hbn]; rfl
      rw [hstep, hrec, List.filter_cons]
      simp [hini]
    | some o =>
      rw [hbn] at hn
      have hn2 : (o.hasInit && o.initErr) = false := hn
      by_cases hi : o.hasInit = true
      · have he : o.initErr = false := by
          cases herr : o.initErr
          · rfl
          · rw [hi, herr] at hn2; exact absurd hn2 (by simp)
        have hstep : Container.Init b (n :: (rest ++ l))
            = (n :: (Container.Init b (rest ++ l)).1, (Container.Init b (rest ++ l)).2) := by
          simp [Container.Init, hbn, hi, he]
        have hini : isInitable (b n) = true := by rw [hbn]; exact hi
        rw [hstep, hrec, List.filter_cons]
        simp [hini]
      · have hi2 : o.hasInit = false := by
          cases hcs : o.hasInit
          · rfl
          · exact absurd hcs hi
        have hstep : Container.Init b (n :: (rest ++ l)) = Container.Init b (rest ++ l) := by
          simp [Container.Init, hbn, hi2]
        have hini : isInitable (b n) = false := by rw [hbn]; exact hi2
        rw [hstep, hrec, List.filter_cons]
        simp [hini]

/-- C6: when every name before k neither fails its Init nor is bound to
a failing module, and the Init of the binding of k returns an error, the
Init phase halts at k: the invoked list is exactly the Initable names
among the ones before k followed by k itself (already performed
initializations are kept, nothing is rolled back), the panic is the
propagated initError, and no name after k is processed. -/
theorem c6_init_halts_at_first_error (b : GoMap Obj) (pre : List String) (k : String)
    (post : List String) (hpre : ∀ n ∈ pre, initFails b n = false)
    (hk : initFails b k = true) :
    Container.Init b (pre ++ k :: post)
      = (pre.filter (fun n => isInitable (b n)) ++ [k], some (PanicKind.initError k)) := by
  have hkres : Container.Init b (k :: post) = ([k], some (PanicKind.initError k)) := by
    unfold initFails at hk
    cases hbk : b k with
    | none => rw [hbk] at hk; exact absurd hk (by simp)
    | some o =>
      rw [hbk] at hk
      have hk2 : (o.hasInit && o.initErr) = true := hk
      simp only [Bool.and_eq_true] at hk2
      simp [Container.Init, hbk, hk2.1, hk2.2]
  rw [init_append_skip b (k :: post) pre hpre, hkres]

/-- Witness for C6 at concrete inputs. -/
theorem c6_witness :
    Container.Init
        (((GoMap.empty.set "a" ⟨true, false, false, false, false⟩).set
            "k" ⟨true, false, false, true, false⟩).set
          "z" ⟨true, false, false, false, false⟩)
        ["a", "k", "z"]
      = (["a", "k"], some (PanicKind.initError "k")) :=
  (c6_init_halts_at_first_error
    (((GoMap.empty.set "a" ⟨true, false, false, false, false⟩).set
        "k" ⟨true, false, false, true, false⟩).set
      "z" ⟨true, false, false, false, false⟩)
    ["a"] "k" ["z"] (by decide) (by decide)).trans (by decide)

/-- C7: when every name of the list is bound to a Stoppable object, the
Shutdown loop invokes Stop on every module in the given order whatever
the individual Stop results are: the names whose Stop returned an error
are exactly logged, and the phase is never aborted by a Stop error. -/
theorem c7_shutdown_continues_after_stop_error (b : GoMap Obj) (modules : List String)
    (h : ∀ n ∈ modules, isStoppable (b n) = true) :
    Container.Shutdown b modules = (modules, modules.filter (stopErrs b), none) := by
  induction modules with
  | nil => rfl
  | cons n rest ih =>
    have hn := h n (List.mem_cons_self n rest)
    have hrest : ∀ x ∈ rest, isStoppable (b x) = true :=
      fun x hx => h x (List.mem_cons_of_mem n hx)
    unfold isStoppable at hn
    cases hbn : b n with
    | none => rw [hbn] at hn; exact absurd hn (by simp)
    | some o =>
      rw [hbn] at hn
      have hn2 : o.hasStop = true := hn
      have hstep : Container.Shutdown b (n :: rest)
          = (n :: (Container.Shutdown b rest).1,
             (if o.stopErr then [n] else []) ++ (Container.Shutdown b rest).2.1,
             (Container.Shutdown b rest).2.2) := by
        simp [Container.Shutdown, hbn, hn2]
      have hse : stopErrs b n = o.stopErr := by unfold stopErrs; rw [hbn]
      rw [hstep, ih hrest, List.filter_cons, hse]
      cases he : o.stopErr <;> simp

/-- Witness for C7 at concrete inputs: the Stop of "a" errors, the Stop
of "c" succeeds, both are invoked in order and only "a" is logged. -/
theorem c7_witness :
    Container.Shutdown
        ((GoMap.empty.set "a" ⟨false, false, true, false, true⟩).set
          "c" ⟨false, false, true, false, false⟩)
        ["a", "c"]
      = (["a", "c"], ["a"], none) :=
  (c7_shutdown_continues_after_stop_error
    ((GoMap.empty.set "a" ⟨false, false, true, false, true⟩).set
      "c" ⟨false, false, true, false, false⟩)
    ["a", "c"] (by decide)).trans (by decide)

/-- A key bound in the config map stays bound through the loop of
SetModuleGlobalConfig: the loop only adds entries, it never removes
one. -/
theorem setLoop_keeps_bound (configs : List ModuleConfig) :
    ∀ (cm : GoMap ConfigVal) (k : String), cm k ≠ none →
      (Container.setLoop cm configs).1 k ≠ none := by
  induction configs with
  | nil => intro cm k h; exact h
  | cons c rest ih =>
    intro cm k h
    by_cases hc : c.Value.isConfiger = true
    · have hstep : (Container.setLoop cm (c :: rest)).1
          = (Container.setLoop (cm.set c.Key c.Value) rest).1 := by
        simp [Container.setLoop, hc]
      rw [hstep]
      apply ih
      simp only [GoMap.set]
      by_cases hk : k = c.Key
      · simp [hk]
      · simp only [hk, if_false]; exact h
    · have hc2 : c.Value.isConfiger = false := by
        cases hcc : c.Value.isConfiger
        · rfl
        · exact absurd hcc hc
      have hstep : (Container.setLoop cm (c :: rest)).1 = cm := by
        simp [Container.setLoop, hc2]
      rw [hstep]; exact h

/-- With every entry of the batch a Configer, the loop of
SetModuleGlobalConfig panics nowhere and collects exactly the batch
values, in order, for the gocon.Load call. -/
theorem setLoop_no_panic (configs : List ModuleConfig) :
    ∀ cm : GoMap ConfigVal, (∀ c ∈ configs, c.Value.isConfiger = true) →
      (Container.setLoop cm configs).2
        = (configs.map (fun c => c.Value), none) := by
  induction configs with
  | nil => intro cm _; rfl
  | cons c rest ih =>
    intro cm h
    have hc := h c (List.mem_cons_self c rest)
    have hrec := ih (cm.set c.Key c.Value) (fun x hx => h x (List.mem_cons_of_mem c hx))
    have hstep : (Container.setLoop cm (c :: rest)).2
        = (c.Value :: (Container.setLoop (cm.set c.Key c.Value) rest).2.1,
           (Container.setLoop (cm.set c.Key c.Value) rest).2.2) := by
      simp [Container.setLoop, hc]
    rw [hstep, hrec]
    simp

/-- With every entry of the batch a Configer, every key of the batch is
bound in the map the loop of SetModuleGlobalConfig returns. -/
theorem setLoop_binds_batch (configs : List ModuleConfig) :
    ∀ cm : GoMap ConfigVal, (∀ c ∈ configs, c.Value.isConfiger = true) →
      ∀ c ∈ configs, (Container.setLoop cm configs).1 c.Key ≠ none := by
  induction configs with
  | nil => intro cm _ c hc; cases hc
  | cons a rest ih =>
    intro cm h c hc
    have ha := h a (List.mem_cons_self a rest)
    have hstep : (Container.setLoop cm (a :: rest)).1
        = (Container.setLoop (cm.set a.Key a.Value) rest).1 := by
      simp [Container.setLoop, ha]
    rw [hstep]
    rcases List.mem_cons.mp hc with rfl | hmem
    · apply setLoop_keeps_bound
      simp [GoMap.set]
    · exact ih (cm.set a.Key a.Value) (fun x hx => h x (List.mem_cons_of_mem a hx)) c hmem

/-- C1 (amended): SetModuleGlobalConfig writes every entry of the batch
into the config map before calling gocon.Load, so when some entry fails
validation the call returns the validation error but every key of the
batch is nevertheless committed: a following GetConfig on such a key
succeeds instead of failing with NotFound. There is no all-or-nothing
rollback. -/
theorem c1_entries_committed_despite_load_error (cm : GoMap ConfigVal)
    (configs : List ModuleConfig)
    (hc : ∀ c ∈ configs, c.Value.isConfiger = true)
    (hv : ∃ c ∈ configs, c.Value.valid = false) :
    (Container.SetModuleGlobalConfig cm configs).2 = SetConfigsOutcome.loadError ∧
    ∀ c ∈ configs, (Container.SetModuleGlobalConfig cm configs).1 c.Key ≠ none := by
  have hsl := setLoop_no_panic configs cm hc
  have h22 : (Container.setLoop cm configs).2.2 = none := by rw [hsl]
  have h21 : (Container.setLoop cm configs).2.1 = configs.map (fun c => c.Value) := by
    rw [hsl]
  have hload : goconLoad (configs.map (fun c => c.Value)) = false := by
    obtain ⟨c, hcm, hcv⟩ := hv
    unfold goconLoad
    cases hall : (configs.map (fun c => c.Value)).all (fun c => c.valid)
    · rfl
    · exfalso
      rw [List.all_eq_true] at hall
      have hcontr := hall c.Value (List.mem_map_of_mem _ hcm)
      rw [hcv] at hcontr
      exact Bool.false_ne_true hcontr
  constructor
  · simp only [Container.SetModuleGlobalConfig, h22, h21, hload]
    simp
  · intro c hmem
    have h1 : (Container.SetModuleGlobalConfig cm configs).1
        = (Container.setLoop cm configs).1 := by
      simp only [Container.SetModuleGlobalConfig, h22]
    rw [h1]
    exact setLoop_binds_batch configs cm hc c hmem

/-- C1 counterexample: SetConfigs of the single entry (db, invalid)
returns the validation error, yet GetConfig("db") afterwards succeeds
with the stored value instead of failing with NotFound: the entry was
committed before validation, against the claimed all-or-nothing
atomicity. -/
theorem c1_counterexample :
    (Container.SetModuleGlobalConfig GoMap.empty
        [⟨"db", ⟨true, false⟩⟩]).2 = SetConfigsOutcome.loadError ∧
    Container.GetGlobalConfig
        (Container.SetModuleGlobalConfig GoMap.empty [⟨"db", ⟨true, false⟩⟩]).1 "db"
      = Except.ok ⟨true, false⟩ :=
  ⟨by decide, rfl⟩

/-- Witness for C1 at concrete inputs: a batch with one valid and one
invalid entry fails with the validation error while both keys end up
committed. -/
theorem c1_witness :
    (Container.SetModuleGlobalConfig GoMap.empty
        [⟨"es", ⟨true, true⟩⟩, ⟨"db", ⟨true, false⟩⟩]).2 = SetConfigsOutcome.loadError ∧
    (Container.SetModuleGlobalConfig GoMap.empty
        [⟨"es", ⟨true, true⟩⟩, ⟨"db", ⟨true, false⟩⟩]).1 "db" ≠ none :=
  ⟨(c1_entries_committed_despite_load_error GoMap.empty
      [⟨"es", ⟨true, true⟩⟩, ⟨"db", ⟨true, false⟩⟩] (by decide) (by decide)).1,
   (c1_entries_committed_despite_load_error GoMap.empty
      [⟨"es", ⟨true, true⟩⟩, ⟨"db", ⟨true, false⟩⟩] (by decide) (by decide)).2
     ⟨"db", ⟨true, false⟩⟩ (by decide)⟩

/-- Running the channel semantics completes at most as many receives as
there are startRecv events in the interleaving. -/
theorem runStop_unblocks_le (tr : List StopEv) :
    ∀ s : ChanState, (runStop s tr).startUnblocks
      ≤ s.startUnblocks + tr.count StopEv.startRecv := by
  induction tr with
  | nil => intro s; simp [runStop]
  | cons e rest ih =>
    intro s
    have h1 : runStop s (e :: rest) = runStop (stepStop s e) rest := rfl
    rw [h1]
    have h2 := ih (stepStop s e)
    have h3 : (stepStop s e).startUnblocks
        ≤ s.startUnblocks + (if e = StopEv.startRecv then 1 else 0) := by
      cases e <;> simp only [stepStop] <;> split <;> simp
    have h4 : (e :: rest).count StopEv.startRecv
        = rest.count StopEv.startRecv + (if e = StopEv.startRecv then 1 else 0) := by
      cases e <;> simp [List.count_cons]
    omega

/-- C3 (amended): Start performs a single receive on c.stopped, so over
any interleaving of channel events containing at most one receive the
Start phase is unblocked at most once, however many sources fire and
however many Shutdown calls complete. The mechanism is a capacity-one
buffered channel, not an idempotent latch: a send finding the buffer
full blocks its goroutine forever, so on the interleaving where a stop
signal fires, Start receives, and Shutdown is then called twice, the
second Shutdown call blocks on its final send and never returns. -/
theorem c3_at_most_once_delivery (tr : List StopEv)
    (h : tr.count StopEv.startRecv ≤ 1) :
    (runStop initChan tr).startUnblocks ≤ 1 ∧
    (runStop initChan [StopEv.fire, StopEv.startRecv, StopEv.shutdownSend,
      StopEv.shutdownSend]).blockedSends = 1 := by
  constructor
  · have hle := runStop_unblocks_le tr initChan
    have hz : initChan.startUnblocks = 0 := rfl
    rw [hz] at hle
    omega
  · decide

/-- Witness for C3 at a concrete interleaving: two sources fire and
Start receives once. -/
theorem c3_witness :
    (runStop initChan [StopEv.fire, StopEv.fire, StopEv.startRecv]).startUnblocks ≤ 1 ∧
    (runStop initChan [StopEv.fire, StopEv.startRecv, StopEv.shutdownSend,
      StopEv.shutdownSend]).blockedSends = 1 :=
  c3_at_most_once_delivery [StopEv.fire, StopEv.fire, StopEv.startRecv] (by decide)

/-- C3 counterexample: the claim says a second Shutdown call after the
event has been delivered has no additional effect; on the interleaving
where a stop signal fires, Start receives, and Shutdown is called twice,
the second send does change the channel state: it finds the buffer full
and blocks its caller forever. -/
theorem c3_counterexample :
    runStop initChan [StopEv.fire, StopEv.startRecv, StopEv.shutdownSend, StopEv.shutdownSend]
      ≠ runStop initChan [StopEv.fire, StopEv.startRecv, StopEv.shutdownSend] ∧
    (runStop initChan [StopEv.fire, StopEv.startRecv, StopEv.shutdownSend,
      StopEv.shutdownSend]).blockedSends = 1 := by decide

/-- C4 counterexample: an object exposing Run but not Init fails the
Runnable assertion, and Start over a name bound to it panics with the
missing-capability condition, against the claim that such an object
counts as Runnable and is accepted by Start. -/
theorem c4_counterexample :
    isRunnable (some ⟨false, true, false, false, false⟩) = false ∧
    Container.Start (GoMap.empty.set "m" ⟨false, true, false, false, false⟩) [] ["m"]
      = Container.StartOutcome.panicked [] (PanicKind.notRunnable "m") := by decide

/-- C4 (amended): the Runnable interface declared in src/README.md
embeds Initable, so the implication is enforced structurally, not mere
convention: Start over one bound name reaches its blocking wait exactly
when the bound object exposes both Init and Run; an object exposing Run
alone fails the capability test and is rejected. -/
theorem c4_runnable_requires_init (b : GoMap Obj) (n : String) (o : Obj)
    (hb : b n = some o) :
    Container.Start b [] [n] = Container.StartOutcome.blocked [n]
      ↔ (o.hasInit && o.hasRun) = true := by
  have hr : isRunnable (b n) = (o.hasInit && o.hasRun) := by rw [hb]; rfl
  cases hcase : (o.hasInit && o.hasRun) <;> simp [Container.Start, hr, hcase]

/-- Witness for C4 at a concrete input: an object exposing both Init and
Run is accepted and Start reaches its blocking wait. -/
theorem c4_witness :
    Container.Start (GoMap.empty.set "m" ⟨true, true, false, false, false⟩) [] ["m"]
      = Container.StartOutcome.blocked ["m"] :=
  (c4_runnable_requires_init (GoMap.empty.set "m" ⟨true, true, false, false, false⟩)
    "m" ⟨true, true, false, false, false⟩ (by decide)).mpr (by decide)

/-- C5: no operation of container.go ever acquires the mutex declared in
the container struct: every map read and write in the traces of Bind,
Resolve, GetGlobalConfig, Init, Start, Shutdown and
SetModuleGlobalConfig runs at lock depth zero, and no trace contains a
single lock acquisition, against the claim (and the thread-safety note
of src/README.md) that all map access is serialized behind the lock. -/
theorem c5_map_access_unguarded :
    lockGuarded bindActions = false ∧
    lockGuarded resolveActions = false ∧
    lockGuarded getGlobalConfigActions = false ∧
    lockGuarded (initActions ["db"]) = false ∧
    lockGuarded (startActions ["db"]) = false ∧
    lockGuarded (shutdownActions ["db"]) = false ∧
    lockGuarded (setModuleGlobalConfigActions [⟨"db", ⟨true, true⟩⟩]) = false ∧
    (bindActions ++ resolveActions ++ getGlobalConfigActions ++ initActions ["db"]
      ++ startActions ["db"] ++ shutdownActions ["db"]
      ++ setModuleGlobalConfigActions [⟨"db", ⟨true, true⟩⟩]).count MemAction.lockAcq
      = 0 := by decide
